import Mathlib

set_option maxHeartbeats 1000000

/-
Verification of the strided-view indexing and scatter-update core found in
theano/sandbox/gpuarray/subtensor.py.

The development shallowly embeds the relevant program pieces:
  * fix_indices            : the C slice normalizer emitted by GpuSubtensor.c_support_code
  * gpuSubtensorCode       : the copy-vs-view decision and per-axis processing emitted by
                             GpuSubtensor.c_code
  * incSubtensor_body/perform          : GpuIncSubtensor.perform
  * advancedIncSubtensor1_scatter/perform : GpuAdvancedIncSubtensor1.perform
  * accelIneligible / dev20Dispatch    : the eligibility test of
                             GpuAdvancedIncSubtensor1_dev20.c_code and the fallback
  * k_vector_add_fast_resolveRow       : the destination-row resolution of the CUDA
                             kernel k_vector_add_fast

Machine integers are modeled as Lean Int/Nat: all arithmetic in the source operates
far below the 2^63 overflow boundary on the inputs considered, and the one place the
C code relies on size_t wraparound (len - 1 for len = 0, yielding -1 after conversion
to ssize_t) coincides with plain Int subtraction, which is noted at its definition.
Arrays are dense row-major buffers of Int elements; dtype distinctions and the
float16 special cases are outside the embedded fragment.
-/

/-! ## Dense multi-dimensional arrays (flat row-major storage) -/

/-- Dense array: a shape and a flat row-major data buffer.  Models the element
contents of a PyGpuArrayObject; a well-formed array has data.length = shape.prod. -/
structure NdArr where
  shape : List Nat
  data : List Int
deriving DecidableEq, Repr

def NdArr.ndim (a : NdArr) : Nat := a.shape.length

/-- Row-major flattening of a multi-index. -/
def flatIdx (shape ix : List Nat) : Nat :=
  (shape.zip ix).foldl (fun acc p => acc * p.1 + p.2) 0

/-- Element lookup at a multi-index (0 when out of range: only used in range). -/
def NdArr.get (a : NdArr) (ix : List Nat) : Int :=
  a.data.getD (flatIdx a.shape ix) 0

/-- All multi-indices of a shape, in row-major order. -/
def allIdx : List Nat → List (List Nat)
  | [] => [[]]
  | d :: ds => (List.range d).flatMap fun i => (allIdx ds).map (i :: ·)

/-- Number of elements in one leading-axis row. -/
def rowSizeOf (shape : List Nat) : Nat := shape.tail.prod

/-- The i-th leading-axis row of an array (numpy x[i] for in-range i). -/
def NdArr.row (a : NdArr) (i : Nat) : NdArr :=
  ⟨a.shape.tail, (a.data.drop (i * rowSizeOf a.shape)).take (rowSizeOf a.shape)⟩

/-- Position-indexed map over a flat buffer, used to model writes through a
row view into the flat storage. -/
def mapWithPos (f : Nat → Int → Int) : Nat → List Int → List Int
  | _, [] => []
  | p, v :: rest => f p v :: mapWithPos f (p + 1) rest

/-! ## Broadcasting (numpy semantics, used by pygpu setitem / elemwise kernels) -/

/-- Shapes compatible for broadcasting src (of rank at most the target rank) to tgt:
align on the right, each source extent equals the target extent or is 1. -/
def bcCompat (src tgt : List Nat) : Bool :=
  decide (src.length ≤ tgt.length) &&
  ((src.zip (tgt.drop (tgt.length - src.length))).all fun p => p.1 == p.2 || p.1 == 1)

/-- Map a target multi-index back to the source multi-index it broadcasts from. -/
def bcIdxMap (src : List Nat) (tgtLen : Nat) (ix : List Nat) : List Nat :=
  (src.zip (ix.drop (tgtLen - src.length))).map fun p => if p.1 = 1 then 0 else p.2

/-- Core broadcast for src rank at most target rank. -/
def bcCore (a : NdArr) (tgt : List Nat) : Option NdArr :=
  if bcCompat a.shape tgt then
    some ⟨tgt, (allIdx tgt).map fun ix => a.get (bcIdxMap a.shape tgt.length ix)⟩
  else none

/-- Broadcast an array to a target shape; extra leading axes of extent 1 are
accepted and squashed (numpy assignment semantics). -/
def broadcastTo (a : NdArr) (tgt : List Nat) : Option NdArr :=
  if tgt.length < a.shape.length then
    if (a.shape.take (a.shape.length - tgt.length)).all (· == 1) then
      bcCore ⟨a.shape.drop (a.shape.length - tgt.length), a.data⟩ tgt
    else none
  else bcCore a tgt

/-! ## Slice normalization: fix_indices from GpuSubtensor.c_support_code -/

/-- Negative-wrap of a bound: the "if (*v < 0) *v += len;" step of fix_indices. -/
def wrapNeg (v : Int) (len : Nat) : Int := if v < 0 then v + (len : Int) else v

/-- Below-range clamp of fix_indices: "if (*v < 0) *v = (*step < 0) ? -1 : 0;". -/
def fixLow (v step : Int) : Int := if v < 0 then (if step < 0 then -1 else 0) else v

/-- Above-range clamp of fix_indices:
"if (*v > -1 && *v >= len) *v = (*step < 0) ? len-1 : len;". -/
def fixHigh (v : Int) (len : Nat) (step : Int) : Int :=
  if v > -1 ∧ v ≥ (len : Int) then (if step < 0 then (len : Int) - 1 else (len : Int)) else v

/-- The full bound normalization applied by fix_indices to a present start or stop. -/
def fixBound (v : Int) (len : Nat) (step : Int) : Int :=
  fixHigh (fixLow (wrapNeg v len) step) len step

/-- Start normalization of fix_indices: the omitted-start default, else the full
bound normalization. -/
def fixStart (start? : Option Int) (len : Nat) (step : Int) : Int :=
  match start? with
  | none => if step < 0 then (len : Int) - 1 else 0
  | some s0 => fixBound s0 len step

/-- Stop normalization of fix_indices before the final inversion snap. -/
def fixStop0 (stop? : Option Int) (len : Nat) (step : Int) : Int :=
  match stop? with
  | none => if step < 0 then -1 else (len : Int)
  | some e0 => fixBound e0 len step

/-- Step resolution: an omitted step is forced to 1 ("if (step_n) *step = 1;"). -/
def resolveStep (step? : Option Int) : Int :=
  match step? with | none => 1 | some s => s

/-- Embedding of the C helper fix_indices (subtensor.py lines 46-74).  A field is
`none` when the corresponding slice member is omitted (the *_n flags of the C code).
Returns none exactly when the C code raises ValueError (zero step).  The C
expression `len-1` is size_t arithmetic and equals -1 (after the ssize_t
conversion) when len = 0, which matches the Int subtraction used here. -/
def fix_indices (start? stop? step? : Option Int) (len : Nat) : Option (Int × Int × Int) :=
  if resolveStep step? = 0 then none
  else
    some (fixStart start? len (resolveStep step?),
      if fixStop0 stop? len (resolveStep step?) < fixStart start? len (resolveStep step?) ∧
          0 < resolveStep step? then
        fixStart start? len (resolveStep step?)
      else fixStop0 stop? len (resolveStep step?),
      resolveStep step?)

/-! ## Reference: CPython slice semantics (PySlice_Unpack / PySlice_AdjustIndices) -/

/-- Reference clamp toward the lower bound used by CPython slice adjustment. -/
def pyClampLow (v lower : Int) : Int := if v < lower then lower else v

/-- Reference clamp toward the upper bound used by CPython slice adjustment. -/
def pyClampHigh (v upper : Int) : Int := if v > upper then upper else v

/-- Reference adjustment of a present slice bound, after CPython: wrap negatives by
adding the length once, then clamp into [lower, upper]. -/
def pyAdjust (v : Int) (len : Nat) (lower upper : Int) : Int :=
  pyClampHigh (pyClampLow (if v < 0 then v + (len : Int) else v) lower) upper

/-- Lower end of the CPython valid window: -1 for negative step, else 0. -/
def pyLower (step : Int) : Int := if step < 0 then -1 else 0

/-- Upper end of the CPython valid window: len-1 for negative step, else len. -/
def pyUpper (step : Int) (len : Nat) : Int :=
  if step < 0 then (len : Int) - 1 else (len : Int)

/-- Reference start: omitted means the far end of the window for negative step,
the near end otherwise. -/
def pyStart (start? : Option Int) (len : Nat) (step : Int) : Int :=
  match start? with
  | none => if step < 0 then pyUpper step len else pyLower step
  | some s0 => pyAdjust s0 len (pyLower step) (pyUpper step len)

/-- Reference stop: omitted means the near end of the window for negative step,
the far end otherwise. -/
def pyStop (stop? : Option Int) (len : Nat) (step : Int) : Int :=
  match stop? with
  | none => if step < 0 then pyLower step else pyUpper step len
  | some e0 => pyAdjust e0 len (pyLower step) (pyUpper step len)

/-- Independent reference slicer: CPython slice normalization.  For step < 0 the
valid window is [-1, len-1], for step > 0 it is [0, len]; omitted bounds take the
extreme of the window on the appropriate side. -/
def pySliceIndices (start? stop? step? : Option Int) (len : Nat) : Option (Int × Int × Int) :=
  let step : Int := match step? with | none => 1 | some s => s
  if step = 0 then none
  else some (pyStart start? len step, pyStop stop? len step, step)

/-- The ordered list of indices a normalized (start, stop, step) triple selects:
walk from start by step while strictly inside the stop bound.  The fuel argument
dominates the selection length; len+1 suffices for any normalized triple. -/
def sliceSelect : Nat → Int → Int → Int → List Int
  | 0, _, _, _ => []
  | fuel + 1, cur, stop, step =>
    if (0 < step ∧ cur < stop) ∨ (step < 0 ∧ stop < cur) then
      cur :: sliceSelect fuel (cur + step) stop step
    else []

/-! ## Supporting lemmas for claim C1 -/

lemma fixBound_eq_pyAdjust (v : Int) (len : Nat) (step : Int) :
    fixBound v len step =
      pyAdjust v len (if step < 0 then -1 else 0)
        (if step < 0 then (len : Int) - 1 else (len : Int)) := by
  unfold fixBound fixHigh fixLow wrapNeg pyAdjust pyClampHigh pyClampLow
  split_ifs <;> omega

lemma sliceSelect_empty (fuel : Nat) (a b c : Int) (hc : 0 < c) (hba : b ≤ a) :
    sliceSelect fuel a b c = [] := by
  cases fuel with
  | zero => rfl
  | succ n =>
    unfold sliceSelect
    rw [if_neg]
    omega

lemma fixStart_eq_pyStart (s : Option Int) (len : Nat) (c : Int) :
    fixStart s len c = pyStart s len c := by
  cases s with
  | none =>
    by_cases hneg : c < 0 <;> simp [fixStart, pyStart, pyLower, pyUpper, hneg]
  | some s0 => simp [fixStart, pyStart, pyLower, pyUpper,
      fixBound_eq_pyAdjust s0 len c]

lemma fixStop0_eq_pyStop (e : Option Int) (len : Nat) (c : Int) :
    fixStop0 e len c = pyStop e len c := by
  cases e with
  | none =>
    by_cases hneg : c < 0 <;> simp [fixStop0, pyStop, pyLower, pyUpper, hneg]
  | some e0 => simp [fixStop0, pyStop, pyLower, pyUpper,
      fixBound_eq_pyAdjust e0 len c]

/-- Relation between the two normalizers: identical start and step, and the stop
components select the same elements (fix_indices additionally snaps an inverted
positive-step stop to start, which selects nothing either way). -/
lemma fix_py_rel (s e t : Option Int) (len : Nat) (h : t ≠ some 0) :
    ∃ a b₁ b₂ c, fix_indices s e t len = some (a, b₁, c) ∧
      pySliceIndices s e t len = some (a, b₂, c) ∧
      (b₁ = b₂ ∨ (0 < c ∧ b₂ < a ∧ b₁ = a)) := by
  have hstep : resolveStep t ≠ 0 := by
    cases t with
    | none => simp [resolveStep]
    | some z =>
      simp only [resolveStep]
      intro hz
      exact h (by rw [hz])
  have hpy : pySliceIndices s e t len =
      some (pyStart s len (resolveStep t), pyStop e len (resolveStep t), resolveStep t) := by
    cases t with
    | none => simp only [pySliceIndices, resolveStep] at hstep ⊢; rw [if_neg hstep]
    | some z => simp only [pySliceIndices, resolveStep] at hstep ⊢; rw [if_neg hstep]
  refine ⟨fixStart s len (resolveStep t),
    if fixStop0 e len (resolveStep t) < fixStart s len (resolveStep t) ∧
        0 < resolveStep t then fixStart s len (resolveStep t)
      else fixStop0 e len (resolveStep t),
    pyStop e len (resolveStep t), resolveStep t, ?_, ?_, ?_⟩
  · unfold fix_indices
    rw [if_neg hstep]
  · rw [hpy, fixStart_eq_pyStart s len _]
  · rw [← fixStop0_eq_pyStop e len _]
    by_cases hadj : fixStop0 e len (resolveStep t) < fixStart s len (resolveStep t) ∧
        0 < resolveStep t
    · right
      rw [if_pos hadj]
      exact ⟨hadj.2, hadj.1, rfl⟩
    · left
      rw [if_neg hadj]

/-! ## Claim C1 -/

/-- Claim C1: for every axis length and every slice specification with omitted or
arbitrary integer fields (step nonzero), the normalizer fix_indices produces a
(start, stop, step) triple selecting exactly the same elements as the CPython
reference slice semantics; in particular len = 5 with slice(None, None, -1)
normalizes to (4, -1, -1). -/
theorem fix_indices_matches_python_reference :
    (∀ (len : Nat) (s e t : Option Int), t ≠ some 0 →
      ∃ f p, fix_indices s e t len = some f ∧ pySliceIndices s e t len = some p ∧
        f.1 = p.1 ∧ f.2.2 = p.2.2 ∧
        sliceSelect (len + 1) f.1 f.2.1 f.2.2 = sliceSelect (len + 1) p.1 p.2.1 p.2.2) ∧
    fix_indices none none (some (-1)) 5 = some (4, -1, -1) := by
  constructor
  · intro len s e t ht
    obtain ⟨a, b₁, b₂, c, hf, hp, hrel⟩ := fix_py_rel s e t len ht
    refine ⟨(a, b₁, c), (a, b₂, c), hf, hp, rfl, rfl, ?_⟩
    rcases hrel with hb | ⟨hc2, hba, hb⟩
    · rw [hb]
    · simp only
      rw [hb, sliceSelect_empty _ a a c hc2 le_rfl,
        sliceSelect_empty _ a b₂ c hc2 (le_of_lt hba)]
  · decide

/-- Witness for C1: instantiated at len = 5 with the full reverse slice. -/
theorem fix_indices_matches_python_reference_witness :
    ∃ f p, fix_indices none none (some (-1)) 5 = some f ∧
      pySliceIndices none none (some (-1)) 5 = some p ∧
      f.1 = p.1 ∧ f.2.2 = p.2.2 ∧
      sliceSelect 6 f.1 f.2.1 f.2.2 = sliceSelect 6 p.1 p.2.1 p.2.2 :=
  fix_indices_matches_python_reference.1 5 none none (some (-1)) (by decide)

/-! ## Claim C6 -/

/-- Per-axis index-spec entries reaching the generated code, with runtime scalars
already resolved to integers (the gof.Type entries of idx_list). -/
inductive CIdx where
  | int (i : Int)
  | slice (start stop step : Option Int)
deriving DecidableEq, Repr

/-- Errors of the generated GpuSubtensor code: ValueError for a zero slice step,
IndexError for an index-list/rank mismatch. -/
inductive SubErr where
  | invalidSlice
  | indexError
deriving DecidableEq, Repr

/-- Per-axis output descriptor handed to pygpu_index: a normalized slice triple, or
a collapsed scalar axis (the generated code records step 0 for those). -/
inductive AxDesc where
  | adesc_slice (start stop step : Int)
  | adesc_int (pos : Int)
deriving DecidableEq, Repr

/-- Result of the generated GpuSubtensor code: a full structural copy (pygpu_copy)
or a zero-copy view (pygpu_index) described per axis. -/
inductive GSubOut where
  | gcopy
  | gview (axes : List AxDesc)
deriving DecidableEq, Repr

/-- Per-axis processing of GpuSubtensor.c_code: slices go through fix_indices
(failing exactly on a zero step); integer indices get the negative wrap
"cur += dims[i]" and collapse the axis. -/
def procAxis : CIdx × Nat → Except SubErr AxDesc
  | (CIdx.slice a b c, len) =>
      match fix_indices a b c len with
      | some tr => Except.ok (AxDesc.adesc_slice tr.1 tr.2.1 tr.2.2)
      | none => Except.error SubErr.invalidSlice
  | (CIdx.int i, len) =>
      Except.ok (AxDesc.adesc_int (if i < 0 then i + (len : Nat) else i))

/-- Embedding of GpuSubtensor.c_code (subtensor.py lines 77-157): pad the index
list with full slices up to the input rank, emit a pygpu_copy when the padded list
is empty, otherwise check the rank and build the pygpu_index view arguments. -/
def gpuSubtensorCode (shape : List Nat) (idxList : List CIdx) : Except SubErr GSubOut :=
  let padded := idxList ++ List.replicate (shape.length - idxList.length)
    (CIdx.slice none none none)
  if padded = [] then Except.ok GSubOut.gcopy
  else if shape.length ≠ padded.length then Except.error SubErr.indexError
  else
    match (List.zip padded shape).mapM procAxis with
    | Except.ok axes => Except.ok (GSubOut.gview axes)
    | Except.error err => Except.error err

/-- Claim C6: a present zero step makes normalization fail with the invalid-slice
error (and the axis produces no view descriptor), while an omitted step is taken
as 1 and never fails on that account. -/
theorem slice_step_zero_rejected :
    (∀ (s e : Option Int) (len : Nat), fix_indices s e (some 0) len = none) ∧
    (∀ (s e : Option Int) (len : Nat),
      fix_indices s e none len = fix_indices s e (some 1) len) ∧
    (∀ (s e : Option Int) (len : Nat), (fix_indices s e none len).isSome = true) ∧
    (∀ (a b : Option Int) (len : Nat),
      procAxis (CIdx.slice a b (some 0), len) = Except.error SubErr.invalidSlice) := by
  refine ⟨fun s e len => rfl, fun s e len => rfl, fun s e len => ?_, fun a b len => ?_⟩
  · simp [fix_indices, resolveStep]
  · simp [procAxis, fix_indices, resolveStep]

/-! ## Scatter updates: GpuAdvancedIncSubtensor1.perform -/

/-- Resolution of an integer row index against a leading-axis extent, as performed
by pygpu/numpy getitem and setitem: in-range values pass, negative values get the
length added once, anything else raises IndexError. -/
def wrapIdx (len : Nat) (i : Int) : Option Nat :=
  if 0 ≤ i ∧ i < (len : Int) then some i.toNat
  else if i < 0 ∧ 0 ≤ i + (len : Int) then some (i + (len : Int)).toNat
  else none

/-- Flat-buffer effect of adding a row-shaped value into row r: positions inside
the row span receive the corresponding source element, the rest are untouched. -/
def rowAddData (shape : List Nat) (r : Nat) (vd d : List Int) : List Int :=
  mapWithPos (fun p w =>
    if r * rowSizeOf shape ≤ p ∧ p < (r + 1) * rowSizeOf shape
    then w + vd.getD (p - r * rowSizeOf shape) 0 else w) 0 d

/-- Flat-buffer effect of overwriting row r with a row-shaped value. -/
def rowSetData (shape : List Nat) (r : Nat) (vd d : List Int) : List Int :=
  mapWithPos (fun p w =>
    if r * rowSizeOf shape ≤ p ∧ p < (r + 1) * rowSizeOf shape
    then vd.getD (p - r * rowSizeOf shape) 0 else w) 0 d

/-- Elementwise in-place addition of a (broadcast) source into row i of the
destination, modeling one call of the kernel built by
getInplElemwiseAdditionKernel ("a[i] = a[i] + b", broadcast enabled). -/
def addRowOp (a : NdArr) (i : Int) (src : NdArr) : Option NdArr :=
  match wrapIdx (a.shape.headD 0) i, broadcastTo src a.shape.tail with
  | some r, some v => some ⟨a.shape, rowAddData a.shape r v.data a.data⟩
  | _, _ => none

/-- Overwrite of row i of the destination with a (broadcast) source, modeling the
numpy-style assignment "x[i] = y". -/
def setRowOp (a : NdArr) (i : Int) (src : NdArr) : Option NdArr :=
  match wrapIdx (a.shape.headD 0) i, broadcastTo src a.shape.tail with
  | some r, some v => some ⟨a.shape, rowSetData a.shape r v.data a.data⟩
  | _, _ => none

/-- The mutation loop of GpuAdvancedIncSubtensor1.perform (subtensor.py lines
464-498), after the inplace/copy choice: an empty index list returns at once;
a source with the same rank as the destination and a non-degenerate leading
extent is consumed row-by-row (after the "assert len(y) == len(idx)" check,
modeled as failure); otherwise the source is reshaped once (dropping the
degenerate leading axis, or left-padding with unit axes up to the row rank)
and applied to every listed row.  setMode selects set_instead_of_inc. -/
def advancedIncSubtensor1_scatter (setMode : Bool) (x y : NdArr) (idx : List Int) :
    Option NdArr :=
  if idx = [] then some x
  else if y.ndim = x.ndim ∧ y.shape.headD 0 ≠ 1 then
    if y.shape.headD 0 = idx.length then
      if setMode then
        idx.enum.foldl (fun o ji => o.bind fun a => setRowOp a ji.2 (y.row ji.1)) (some x)
      else
        idx.enum.foldl (fun o ji => o.bind fun a => addRowOp a ji.2 (y.row ji.1)) (some x)
    else none
  else
    let reshaped_y : NdArr :=
      if y.ndim = x.ndim then ⟨y.shape.tail, y.data⟩
      else ⟨List.replicate (x.ndim - 1 - y.ndim) 1 ++ y.shape, y.data⟩
    if setMode then
      idx.foldl (fun o i => o.bind fun a => setRowOp a i reshaped_y) (some x)
    else
      idx.foldl (fun o i => o.bind fun a => addRowOp a i reshaped_y) (some x)

/-- Buffer heap: the mutable array buffers live at positions of a list; an
operation result names the buffer it aliases by position. -/
def Heap := List NdArr

/-- Full GpuAdvancedIncSubtensor1.perform over the buffer heap (subtensor.py lines
454-498): the destination buffer is deep-copied into a fresh buffer unless
inplace, then the scatter loop mutates the chosen buffer, which is returned. -/
def advancedIncSubtensor1_perform (setMode inplace : Bool) (σ : List NdArr) (xid : Nat)
    (y : NdArr) (idx : List Int) : Option (List NdArr × Nat) :=
  match σ[xid]? with
  | none => none
  | some x =>
    let tid := if inplace then xid else σ.length
    let σ1 := if inplace then σ else σ ++ [x]
    match advancedIncSubtensor1_scatter setMode x y idx with
    | none => none
    | some x2 => some (σ1.set tid x2, tid)

/-! ## Order independence of accumulate-mode scatter (claim C2 machinery) -/

/-- One accumulate step over an (index, source-row) pair, with error propagation. -/
def accStep (o : Option NdArr) (p : Int × NdArr) : Option NdArr :=
  o.bind fun a => addRowOp a p.1 p.2

lemma mapWithPos_comp (f g : Nat → Int → Int) :
    ∀ (n : Nat) (l : List Int),
      mapWithPos f n (mapWithPos g n l) = mapWithPos (fun p w => f p (g p w)) n l := by
  intro n l
  induction l generalizing n with
  | nil => rfl
  | cons v rest ih => simp [mapWithPos, ih]

lemma mapWithPos_congr (f g : Nat → Int → Int) (h : ∀ p w, f p w = g p w) :
    ∀ (n : Nat) (l : List Int), mapWithPos f n l = mapWithPos g n l := by
  intro n l
  induction l generalizing n with
  | nil => rfl
  | cons v rest ih => simp [mapWithPos, h, ih]

/-- Writes into distinct rows touch disjoint position ranges. -/
lemma row_ranges_disjoint (rs r1 r2 p : Nat) (hne : r1 ≠ r2)
    (h1 : r1 * rs ≤ p ∧ p < (r1 + 1) * rs) (h2 : r2 * rs ≤ p ∧ p < (r2 + 1) * rs) :
    False := by
  rcases Nat.lt_or_ge r1 r2 with hlt | hge
  · have hmul : (r1 + 1) * rs ≤ r2 * rs := Nat.mul_le_mul_right rs hlt
    omega
  · have hlt2 : r2 < r1 := lt_of_le_of_ne hge (Ne.symm hne)
    have hmul : (r2 + 1) * rs ≤ r1 * rs := Nat.mul_le_mul_right rs hlt2
    omega

/-- Row additions into the flat buffer commute: same-row additions commute
elementwise, different rows touch disjoint position ranges. -/
lemma rowAddData_comm (shape : List Nat) (r1 r2 : Nat) (vd1 vd2 d : List Int) :
    rowAddData shape r1 vd1 (rowAddData shape r2 vd2 d) =
    rowAddData shape r2 vd2 (rowAddData shape r1 vd1 d) := by
  unfold rowAddData
  rw [mapWithPos_comp, mapWithPos_comp]
  apply mapWithPos_congr
  intro p w
  by_cases hr : r1 = r2
  · subst hr
    by_cases hp : r1 * rowSizeOf shape ≤ p ∧ p < (r1 + 1) * rowSizeOf shape
    · simp only [if_pos hp]
      ring
    · simp [hp]
  · by_cases hp1 : r1 * rowSizeOf shape ≤ p ∧ p < (r1 + 1) * rowSizeOf shape <;>
      by_cases hp2 : r2 * rowSizeOf shape ≤ p ∧ p < (r2 + 1) * rowSizeOf shape
    · exact (row_ranges_disjoint (rowSizeOf shape) r1 r2 p hr hp1 hp2).elim
    · simp [hp1, hp2]
    · simp [hp1, hp2]
    · simp [hp1, hp2]

/-- Two accumulate steps commute: both success and failure of a step depend only
on the (preserved) shape, and the buffer effects commute. -/
lemma addRowOp_comm (a : NdArr) (i1 i2 : Int) (s1 s2 : NdArr) :
    (addRowOp a i1 s1).bind (fun b => addRowOp b i2 s2) =
    (addRowOp a i2 s2).bind (fun b => addRowOp b i1 s1) := by
  have E : ∀ (d : List Int) (i : Int) (s : NdArr),
      addRowOp ⟨a.shape, d⟩ i s =
        match wrapIdx (a.shape.headD 0) i, broadcastTo s a.shape.tail with
        | some r, some v => some ⟨a.shape, rowAddData a.shape r v.data d⟩
        | _, _ => none := fun d i s => rfl
  have Ea : ∀ (i : Int) (s : NdArr),
      addRowOp a i s =
        match wrapIdx (a.shape.headD 0) i, broadcastTo s a.shape.tail with
        | some r, some v => some ⟨a.shape, rowAddData a.shape r v.data a.data⟩
        | _, _ => none := fun i s => rfl
  rw [Ea i1 s1, Ea i2 s2]
  rcases h1 : wrapIdx (a.shape.headD 0) i1 with _ | r1 <;>
    rcases g1 : broadcastTo s1 a.shape.tail with _ | v1 <;>
    rcases h2 : wrapIdx (a.shape.headD 0) i2 with _ | r2 <;>
    rcases g2 : broadcastTo s2 a.shape.tail with _ | v2 <;>
    simp only [Option.none_bind, Option.some_bind, E, h1, g1, h2, g2]
  rw [rowAddData_comm]

lemma accStep_swap (o : Option NdArr) (p q : Int × NdArr) :
    accStep (accStep o p) q = accStep (accStep o q) p := by
  cases o with
  | none => rfl
  | some a => exact addRowOp_comm a p.1 q.1 p.2 q.2

/-- Folding accumulate steps over any permutation of the pair list yields the same
result: with addition commutative, per-index contributions may be applied in any
order. -/
lemma accStep_perm {ps qs : List (Int × NdArr)} (h : ps.Perm qs) :
    ∀ o : Option NdArr, ps.foldl accStep o = qs.foldl accStep o := by
  induction h with
  | nil => intro o; rfl
  | cons p hpq ih => intro o; exact ih (accStep o p)
  | swap p q l => intro o; simp only [List.foldl_cons]; rw [accStep_swap]
  | trans h1 h2 ih1 ih2 => intro o; rw [ih1 o, ih2 o]

/-! ## Claim C2 -/

/-- Claim C2: accumulate-mode scatter permits duplicate indices and sums every
contribution, with a result independent of the order in which the per-index
additions are applied; the accumulate loop of the 1:1 branch is exactly the
pair-list fold, folds over permuted pair lists agree, and the 3x2 example with
indices [0,0] and source [[1,1],[1,1]] yields [[2,2],[0,0],[0,0]]. -/
theorem scatter_accumulate_sums_duplicates :
    (∀ (x : NdArr) (ps qs : List (Int × NdArr)), ps.Perm qs →
      ps.foldl accStep (some x) = qs.foldl accStep (some x)) ∧
    (∀ (x y : NdArr) (idx : List Int), idx ≠ [] → y.ndim = x.ndim →
      y.shape.headD 0 ≠ 1 → y.shape.headD 0 = idx.length →
      advancedIncSubtensor1_scatter false x y idx =
        (idx.enum.map fun ji => (ji.2, y.row ji.1)).foldl accStep (some x)) ∧
    advancedIncSubtensor1_scatter false ⟨[3, 2], [0, 0, 0, 0, 0, 0]⟩
      ⟨[2, 2], [1, 1, 1, 1]⟩ [0, 0] =
      some ⟨[3, 2], [2, 2, 0, 0, 0, 0]⟩ := by
  refine ⟨fun x ps qs h => accStep_perm h (some x), fun x y idx hne h1 h2 h3 => ?_,
    by decide⟩
  unfold advancedIncSubtensor1_scatter
  rw [if_neg hne, if_pos ⟨h1, h2⟩, if_pos h3, List.foldl_map]
  simp only [Bool.false_eq_true, if_false]
  rfl

/-- Witness for C2: a two-element pair list folded in both orders from a concrete
2x2 destination. -/
theorem scatter_accumulate_sums_duplicates_witness :
    ([((0 : Int), NdArr.mk [2] [10, 20]), ((1 : Int), NdArr.mk [2] [1, 2])].foldl
        accStep (some (NdArr.mk [2, 2] [0, 0, 0, 0]))) =
    ([((1 : Int), NdArr.mk [2] [1, 2]), ((0 : Int), NdArr.mk [2] [10, 20])].foldl
        accStep (some (NdArr.mk [2, 2] [0, 0, 0, 0]))) :=
  scatter_accumulate_sums_duplicates.1 (NdArr.mk [2, 2] [0, 0, 0, 0])
    [((0 : Int), NdArr.mk [2] [10, 20]), ((1 : Int), NdArr.mk [2] [1, 2])]
    [((1 : Int), NdArr.mk [2] [1, 2]), ((0 : Int), NdArr.mk [2] [10, 20])]
    (List.Perm.swap ((1 : Int), NdArr.mk [2] [1, 2]) ((0 : Int), NdArr.mk [2] [10, 20]) [])

/-! ## Claim C3 -/

/-- One scatter step in either mode, over an (index, source) pair. -/
def foldPairs (setMode : Bool) (x : NdArr) (ps : List (Int × NdArr)) : Option NdArr :=
  ps.foldl (fun o p => o.bind fun a => (if setMode then setRowOp else addRowOp) a p.1 p.2)
    (some x)

/-- Modelled from the wording of the spec, for the refinement comparison of C3:
the broadcast source is the original source with its degenerate leading axis
dropped when the ranks agree, else left-padded with unit axes up to the
destination rank minus one. -/
def specBroadcastSource (x y : NdArr) : NdArr :=
  if y.ndim = x.ndim then ⟨y.shape.tail, y.data⟩
  else ⟨List.replicate (x.ndim - 1 - y.ndim) 1 ++ y.shape, y.data⟩

/-- Counterexample for C3 as stated: with an empty index vector, the 1:1
conditions (equal ranks, non-degenerate leading extent) and mismatched lengths
(0 versus 2) hold, yet the update returns the destination unchanged instead of
failing with a dimension error: the early empty-index return bypasses the
length check. -/
theorem scatter_source_pairing_cex :
    advancedIncSubtensor1_scatter false ⟨[2, 1], [5, 6]⟩ ⟨[2, 1], [7, 8]⟩ [] =
      some ⟨[2, 1], [5, 6]⟩ ∧
    (NdArr.mk [2, 1] [7, 8]).ndim = (NdArr.mk [2, 1] [5, 6]).ndim ∧
    (NdArr.mk [2, 1] [7, 8]).shape.headD 0 ≠ 1 ∧
    ([] : List Int).length ≠ (NdArr.mk [2, 1] [7, 8]).shape.headD 0 := by decide

/-- Claim C3 (amended: for a nonempty index vector): if the source rank equals
the destination rank and the leading extent is not 1, the i-th index is paired
1:1 with the i-th source row under the equal-length precondition, else the
operation fails; otherwise the source is reshaped once — degenerate leading axis
dropped on equal ranks, else left-padded with unit axes to destination rank
minus one — and that same source is applied to every selected row. -/
theorem scatter_source_pairing :
    ∀ (m : Bool) (x y : NdArr) (idx : List Int), idx ≠ [] →
      ((y.ndim = x.ndim ∧ y.shape.headD 0 ≠ 1) →
        (y.shape.headD 0 = idx.length →
          advancedIncSubtensor1_scatter m x y idx =
            foldPairs m x (idx.enum.map fun ji => (ji.2, y.row ji.1))) ∧
        (y.shape.headD 0 ≠ idx.length →
          advancedIncSubtensor1_scatter m x y idx = none)) ∧
      (¬(y.ndim = x.ndim ∧ y.shape.headD 0 ≠ 1) →
        advancedIncSubtensor1_scatter m x y idx =
          foldPairs m x (idx.map fun i => (i, specBroadcastSource x y))) := by
  intro m x y idx hne
  constructor
  · intro hcond
    constructor
    · intro hlen
      unfold advancedIncSubtensor1_scatter foldPairs
      rw [if_neg hne, if_pos hcond, if_pos hlen, List.foldl_map]
      cases m <;> simp
    · intro hlen
      unfold advancedIncSubtensor1_scatter
      rw [if_neg hne, if_pos hcond, if_neg hlen]
  · intro hcond
    unfold advancedIncSubtensor1_scatter foldPairs specBroadcastSource
    rw [if_neg hne, if_neg hcond, List.foldl_map]
    cases m <;> simp

/-- Witness for C3: the 1:1 accumulate pairing at a concrete 2x1 destination. -/
theorem scatter_source_pairing_witness :
    advancedIncSubtensor1_scatter false ⟨[2, 1], [0, 0]⟩ ⟨[2, 1], [3, 4]⟩ [0, 1] =
      foldPairs false ⟨[2, 1], [0, 0]⟩
        (([0, 1] : List Int).enum.map fun ji =>
          (ji.2, (NdArr.mk [2, 1] [3, 4]).row ji.1)) :=
  ((scatter_source_pairing false ⟨[2, 1], [0, 0]⟩ ⟨[2, 1], [3, 4]⟩ [0, 1]
      (by decide)).1 (by decide)).1 (by decide)

/-! ## Combine updates: GpuIncSubtensor.perform -/

/-- Per-axis resolution of an index entry against the axis extent, pygpu getitem
semantics: an integer index collapses the axis (after wrap and bound check); a
slice is normalized by the Python reference semantics, recording the start, the
step and the number of selected positions. -/
inductive AxView where
  | axscalar (r : Nat)
  | axslice (start step : Int) (count : Nat)
deriving DecidableEq, Repr

def resolveAx : CIdx × Nat → Option AxView
  | (CIdx.int i, len) => (wrapIdx len i).map AxView.axscalar
  | (CIdx.slice a b c, len) =>
      (pySliceIndices a b c len).map fun tr =>
        AxView.axslice tr.1 tr.2.2 (sliceSelect (len + 1) tr.1 tr.2.1 tr.2.2).length

/-- Resolve a full index tuple against an array shape: pad with full slices on
the right, refuse more entries than axes, then resolve per axis. -/
def getViewAxes (shape : List Nat) (cdata : List CIdx) : Option (List AxView) :=
  if shape.length < cdata.length then none
  else (List.zip (cdata ++ List.replicate (shape.length - cdata.length)
    (CIdx.slice none none none)) shape).mapM resolveAx

/-- Shape of the selected view: one extent per slice axis, scalar axes dropped. -/
def viewShape (axes : List AxView) : List Nat :=
  axes.filterMap fun ax =>
    match ax with
    | AxView.axslice _ _ n => some n
    | AxView.axscalar _ => none

/-- Source multi-index addressed by a view multi-index. -/
def srcIdx : List AxView → List Nat → List Nat
  | [], _ => []
  | AxView.axscalar r :: rest, ix => r :: srcIdx rest ix
  | AxView.axslice s t _ :: rest, k :: ix => (s + (k : Int) * t).toNat :: srcIdx rest ix
  | AxView.axslice s _ _ :: rest, [] => s.toNat :: srcIdx rest []

/-- Point write into the flat buffer at a source multi-index. -/
def NdArr.setAt (a : NdArr) (ix : List Nat) (v : Int) : NdArr :=
  ⟨a.shape, a.data.set (flatIdx a.shape ix) v⟩

/-- Overwrite the selected view with a (view-shaped) value, element by element. -/
def writeView (x : NdArr) (axes : List AxView) (v : NdArr) : NdArr :=
  (allIdx (viewShape axes)).foldl (fun a ix => a.setAt (srcIdx axes ix) (v.get ix)) x

/-- Elementwise addition of an exactly view-shaped value into the selected view
(pygpu ielemwise2 with broadcasting disabled). -/
def addView (x : NdArr) (axes : List AxView) (v : NdArr) : NdArr :=
  (allIdx (viewShape axes)).foldl
    (fun a ix => a.setAt (srcIdx axes ix) (a.get (srcIdx axes ix) + v.get ix)) x

/-- The mutation body of GpuIncSubtensor.perform (subtensor.py lines 242-260),
after the inplace/copy choice: carve the view sub_x = x[cdata]; for a
multi-dimensional view either add y elementwise in place (ielemwise2, broadcast
disabled, shapes must agree) or assign y into the view (setitem, broadcast); for
a scalar view compute the sum into a fresh scalar and write it back, or write y
directly.  setMode selects set_instead_of_inc. -/
def incSubtensor_body (setMode : Bool) (x y : NdArr) (cdata : List CIdx) : Option NdArr :=
  match getViewAxes x.shape cdata with
  | none => none
  | some axes =>
    if viewShape axes ≠ [] then
      if setMode then (broadcastTo y (viewShape axes)).map fun v => writeView x axes v
      else if y.shape = viewShape axes then some (addView x axes y) else none
    else
      if setMode then (broadcastTo y []).map fun v => writeView x axes v
      else if y.shape = ([] : List Nat) then
        some (writeView x axes ⟨[], [x.get (srcIdx axes []) + y.get []]⟩)
      else none

/-- Full GpuIncSubtensor.perform over the buffer heap (subtensor.py lines
221-260): deep-copy the destination buffer unless inplace, mutate the chosen
buffer through the carved view, return that buffer. -/
def incSubtensor_perform (setMode inplace : Bool) (σ : List NdArr) (xid : Nat)
    (y : NdArr) (cdata : List CIdx) : Option (List NdArr × Nat) :=
  match σ[xid]? with
  | none => none
  | some x =>
    let tid := if inplace then xid else σ.length
    let σ1 := if inplace then σ else σ ++ [x]
    match incSubtensor_body setMode x y cdata with
    | none => none
    | some x2 => some (σ1.set tid x2, tid)

/-! ## Claims C4 and C10 -/

lemma list_set_self {α : Type} (l : List α) (i : Nat) (x : α) (h : l[i]? = some x) :
    l.set i x = l := by
  induction l generalizing i with
  | nil => simp at h
  | cons a rest ih =>
    cases i with
    | zero => simp at h; simp [h]
    | succ n =>
      simp at h
      simp [List.set, ih n h]

/-- Claim C4: for both the combine update and the scatter update, a run with the
inplace flag false leaves the original destination buffer untouched and returns a
fresh buffer holding the update result, while a run with the flag true returns
the original buffer position itself, now holding the update result. -/
theorem inplace_flag_semantics :
    ∀ (m : Bool) (σ σ1 σ2 σ3 σ4 : List NdArr) (xid r1 r2 r3 r4 : Nat) (x y : NdArr)
      (idx : List Int) (cdata : List CIdx), σ[xid]? = some x →
      (advancedIncSubtensor1_perform m false σ xid y idx = some (σ1, r1) →
        σ1[xid]? = some x ∧ r1 = σ.length ∧ r1 ≠ xid ∧
        σ1[r1]? = advancedIncSubtensor1_scatter m x y idx) ∧
      (advancedIncSubtensor1_perform m true σ xid y idx = some (σ2, r2) →
        r2 = xid ∧ σ2[xid]? = advancedIncSubtensor1_scatter m x y idx) ∧
      (incSubtensor_perform m false σ xid y cdata = some (σ3, r3) →
        σ3[xid]? = some x ∧ r3 = σ.length ∧ r3 ≠ xid ∧
        σ3[r3]? = incSubtensor_body m x y cdata) ∧
      (incSubtensor_perform m true σ xid y cdata = some (σ4, r4) →
        r4 = xid ∧ σ4[xid]? = incSubtensor_body m x y cdata) := by
  intro m σ σ1 σ2 σ3 σ4 xid r1 r2 r3 r4 x y idx cdata hx
  have hlt : xid < σ.length := (List.getElem?_eq_some_iff.mp hx).1
  refine ⟨?_, ?_, ?_, ?_⟩
  · intro h
    unfold advancedIncSubtensor1_perform at h
    rw [hx] at h
    simp only [if_neg (Bool.false_ne_true)] at h
    rcases hb : advancedIncSubtensor1_scatter m x y idx with _ | x2 <;> rw [hb] at h
    · exact absurd h (by simp)
    · obtain ⟨hσ, hr⟩ : (σ ++ [x]).set σ.length x2 = σ1 ∧ σ.length = r1 := by
        constructor <;> [exact congrArg Prod.fst (Option.some.inj h);
          exact congrArg Prod.snd (Option.some.inj h)]
      subst hr
      refine ⟨?_, rfl, by omega, ?_⟩
      · rw [← hσ, List.getElem?_set_ne (by omega), List.getElem?_append_left hlt, hx]
      · rw [← hσ, List.getElem?_set_eq_of_lt x2 (by simp)]
  · intro h
    unfold advancedIncSubtensor1_perform at h
    rw [hx] at h
    simp only [if_pos rfl] at h
    rcases hb : advancedIncSubtensor1_scatter m x y idx with _ | x2 <;> rw [hb] at h
    · exact absurd h (by simp)
    · obtain ⟨hσ, hr⟩ : σ.set xid x2 = σ2 ∧ xid = r2 := by
        constructor <;> [exact congrArg Prod.fst (Option.some.inj h);
          exact congrArg Prod.snd (Option.some.inj h)]
      subst hr
      exact ⟨rfl, by rw [← hσ, List.getElem?_set_eq_of_lt x2 (by omega)]⟩
  · intro h
    unfold incSubtensor_perform at h
    rw [hx] at h
    simp only [if_neg (Bool.false_ne_true)] at h
    rcases hb : incSubtensor_body m x y cdata with _ | x2 <;> rw [hb] at h
    · exact absurd h (by simp)
    · obtain ⟨hσ, hr⟩ : (σ ++ [x]).set σ.length x2 = σ3 ∧ σ.length = r3 := by
        constructor <;> [exact congrArg Prod.fst (Option.some.inj h);
          exact congrArg Prod.snd (Option.some.inj h)]
      subst hr
      refine ⟨?_, rfl, by omega, ?_⟩
      · rw [← hσ, List.getElem?_set_ne (by omega), List.getElem?_append_left hlt, hx]
      · rw [← hσ, List.getElem?_set_eq_of_lt x2 (by simp)]
  · intro h
    unfold incSubtensor_perform at h
    rw [hx] at h
    simp only [if_pos rfl] at h
    rcases hb : incSubtensor_body m x y cdata with _ | x2 <;> rw [hb] at h
    · exact absurd h (by simp)
    · obtain ⟨hσ, hr⟩ : σ.set xid x2 = σ4 ∧ xid = r4 := by
        constructor <;> [exact congrArg Prod.fst (Option.some.inj h);
          exact congrArg Prod.snd (Option.some.inj h)]
      subst hr
      exact ⟨rfl, by rw [← hσ, List.getElem?_set_eq_of_lt x2 (by omega)]⟩

/-- Witness for C4: a concrete scatter run without the inplace flag, from a
one-buffer heap. -/
theorem inplace_flag_semantics_witness :
    ([NdArr.mk [2] [3, 4], NdArr.mk [2] [13, 4]] : List NdArr)[0]? =
        some (NdArr.mk [2] [3, 4]) ∧
      (1 : Nat) = ([NdArr.mk [2] [3, 4]] : List NdArr).length ∧ (1 : Nat) ≠ 0 ∧
      ([NdArr.mk [2] [3, 4], NdArr.mk [2] [13, 4]] : List NdArr)[(1 : Nat)]? =
        advancedIncSubtensor1_scatter false (NdArr.mk [2] [3, 4]) (NdArr.mk [] [10]) [0] :=
  (inplace_flag_semantics false [NdArr.mk [2] [3, 4]]
      [NdArr.mk [2] [3, 4], NdArr.mk [2] [13, 4]] [] [] [] 0 1 0 0 0
      (NdArr.mk [2] [3, 4]) (NdArr.mk [] [10]) [0] [] (by decide)).1 (by decide)

/-- Claim C10: a scatter update with an empty index vector performs no writes:
with the inplace flag it returns the heap unchanged and the original buffer
position; without it, it returns a fresh buffer whose contents equal the
original, the original buffer untouched. -/
theorem scatter_empty_index_vector :
    ∀ (m inpl : Bool) (σ : List NdArr) (xid : Nat) (x y : NdArr), σ[xid]? = some x →
      advancedIncSubtensor1_perform m inpl σ xid y [] =
        some (if inpl then σ else σ ++ [x], if inpl then xid else σ.length) := by
  intro m inpl σ xid x y hx
  have hemp : advancedIncSubtensor1_scatter m x y [] = some x := by
    unfold advancedIncSubtensor1_scatter
    rw [if_pos rfl]
  cases inpl with
  | false =>
    simp only [advancedIncSubtensor1_perform, hx, hemp, Bool.false_eq_true, if_false]
    rw [list_set_self _ _ _ (List.getElem?_concat_length σ x)]
  | true =>
    simp only [advancedIncSubtensor1_perform, hx, hemp, if_true]
    rw [list_set_self _ _ _ hx]

/-- Witness for C10: an empty-index scatter on a concrete one-buffer heap, in
place. -/
theorem scatter_empty_index_vector_witness :
    advancedIncSubtensor1_perform false true [NdArr.mk [2] [3, 4]] 0
        (NdArr.mk [] [10]) [] =
      some (if true then [NdArr.mk [2] [3, 4]] else [NdArr.mk [2] [3, 4]] ++
        [NdArr.mk [2] [3, 4]], if true then 0 else 1) :=
  scatter_empty_index_vector false true [NdArr.mk [2] [3, 4]] 0
    (NdArr.mk [2] [3, 4]) (NdArr.mk [] [10]) (by decide)

/-! ## Claim C5 -/

deriving instance DecidableEq for Except

/-- Counterexample for C5 as stated: an empty index-spec list on a rank-1 source
is padded to a full slice and produces a pygpu_index view, not a copy. -/
theorem empty_index_spec_copies_cex :
    gpuSubtensorCode [2] [] = Except.ok (GSubOut.gview [AxDesc.adesc_slice 0 2 1]) ∧
    gpuSubtensorCode [2] [] ≠ Except.ok GSubOut.gcopy := by decide

/-- Claim C5 (amended): the generated indexing code returns a full structural
copy exactly when the padded index list is empty — that is, for an empty
index-spec list on a rank-0 source; every other successful indexing returns a
zero-copy view. -/
theorem empty_padded_index_copies :
    ∀ (shape : List Nat) (idxList : List CIdx) (out : GSubOut),
      gpuSubtensorCode shape idxList = Except.ok out →
      (out = GSubOut.gcopy ↔ (idxList = [] ∧ shape = [])) := by
  intro shape idxList out h
  unfold gpuSubtensorCode at h
  by_cases hpad : idxList ++ List.replicate (shape.length - idxList.length)
      (CIdx.slice none none none) = []
  · rw [if_pos hpad] at h
    obtain ⟨h1, _h2⟩ := List.append_eq_nil.mp hpad
    have hsh : shape = [] := by
      cases shape with
      | nil => rfl
      | cons d ds =>
        subst h1
        simp at hpad
    have hout : out = GSubOut.gcopy := (Except.ok.inj h).symm
    subst hout
    simp [h1, hsh]
  · rw [if_neg hpad] at h
    have hrhs : ¬(idxList = [] ∧ shape = []) := by
      rintro ⟨h1, h2⟩
      subst h1
      subst h2
      simp at hpad
    by_cases hlen : shape.length ≠ (idxList ++ List.replicate
        (shape.length - idxList.length) (CIdx.slice none none none)).length
    · rw [if_pos hlen] at h
      cases h
    · rw [if_neg hlen] at h
      rcases hm : (List.zip (idxList ++ List.replicate (shape.length - idxList.length)
          (CIdx.slice none none none)) shape).mapM procAxis with err | axes <;>
        rw [hm] at h
      · exact absurd h (by simp)
      · have hout : out = GSubOut.gview axes := by
          have := h
          simp only at this
          exact (Except.ok.inj this).symm
        subst hout
        simp [hrhs]

/-- Witness for C5: a successful rank-1 integer indexing, which is a view and
whose index list is not empty. -/
theorem empty_padded_index_copies_witness :
    (GSubOut.gview [AxDesc.adesc_int 0] = GSubOut.gcopy ↔
      ([CIdx.int 0] : List CIdx) = [] ∧ ([3] : List Nat) = []) :=
  empty_padded_index_copies [3] [CIdx.int 0] (GSubOut.gview [AxDesc.adesc_int 0])
    (by decide)

/-! ## Claim C7 -/

/-- Configuration seen by GpuAdvancedIncSubtensor1_dev20.c_code: the operation
mode, the ranks of destination and source, and the device compute capability. -/
structure DevConfig where
  setMode : Bool
  xndim : Nat
  yndim : Nat
  computeCapability : Nat
deriving DecidableEq, Repr

/-- Eligibility refusal of the accelerated path (subtensor.py lines 560-568):
NotImplementedError is raised for set mode, mismatched ranks, destination rank
other than 2, or compute capability below 2. -/
def accelIneligible (c : DevConfig) : Bool :=
  c.setMode || (c.xndim != c.yndim) || (c.xndim != 2) ||
    decide (c.computeCapability < 2)

/-- Outcome of dispatching one scatter update: the accelerated device kernel, the
sequential host loop, or an eligibility error surfaced to the caller. -/
inductive DispatchResult where
  | kernel
  | sequential (r : Option NdArr)
  | raisedToCaller
deriving DecidableEq, Repr

/-- Modelled from the spec: the surrounding operator framework — code of this
repository not under src/ — catches the NotImplementedError of the accelerated
code generator and silently falls back to the Python perform path, the
sequential per-index loop inherited from GpuAdvancedIncSubtensor1. -/
def dev20Dispatch (c : DevConfig) (x y : NdArr) (idx : List Int) : DispatchResult :=
  if accelIneligible c then
    DispatchResult.sequential (advancedIncSubtensor1_scatter c.setMode x y idx)
  else DispatchResult.kernel

/-- Claim C7: whenever the accelerated path is ineligible (set mode, rank
mismatch, rank other than 2, or capability below 2), dispatch falls back to the
sequential per-index loop and completes that update; an eligibility failure is
never surfaced to the caller. -/
theorem accelerated_path_fallback :
    (∀ (c : DevConfig) (x y : NdArr) (idx : List Int),
      c.setMode = true ∨ c.xndim ≠ c.yndim ∨ c.xndim ≠ 2 ∨ c.computeCapability < 2 →
      dev20Dispatch c x y idx =
        DispatchResult.sequential (advancedIncSubtensor1_scatter c.setMode x y idx)) ∧
    (∀ (c : DevConfig) (x y : NdArr) (idx : List Int),
      dev20Dispatch c x y idx ≠ DispatchResult.raisedToCaller) := by
  constructor
  · intro c x y idx h
    have helig : accelIneligible c = true := by
      unfold accelIneligible
      rcases h with h | h | h | h <;> simp [h, bne_iff_ne]
    unfold dev20Dispatch
    rw [if_pos helig]
  · intro c x y idx
    unfold dev20Dispatch
    split <;> simp

/-- Witness for C7: a set-mode configuration on a capability-3 device falls back
to the sequential loop. -/
theorem accelerated_path_fallback_witness :
    dev20Dispatch ⟨true, 2, 2, 3⟩ (NdArr.mk [2, 2] [0, 0, 0, 0])
        (NdArr.mk [2, 2] [1, 1, 1, 1]) [0] =
      DispatchResult.sequential (advancedIncSubtensor1_scatter true
        (NdArr.mk [2, 2] [0, 0, 0, 0]) (NdArr.mk [2, 2] [1, 1, 1, 1]) [0]) :=
  accelerated_path_fallback.1 ⟨true, 2, 2, 3⟩ (NdArr.mk [2, 2] [0, 0, 0, 0])
    (NdArr.mk [2, 2] [1, 1, 1, 1]) [0] (Or.inl rfl)

/-! ## Claim C8 -/

/-- Destination-row resolution of the CUDA kernel k_vector_add_fast (subtensor.py
lines 658-660): "int x_row = indices_arr[i * stridesIndices]; if (x_row < 0)
x_row += numRowsX;" — the row count is added once to a negative value.  Index
values stay far below the int truncation boundary on the inputs considered. -/
def k_vector_add_fast_resolveRow (numRowsX : Nat) (ival : Int) : Int :=
  if ival < 0 then ival + (numRowsX : Int) else ival

/-- Counterexample for C8 as stated: the kernel adds the row count only once
rather than reducing modulo it, so the integer index -7 against 3 rows resolves
to -4, outside [0, 3). -/
theorem kernel_negative_wrap_cex :
    k_vector_add_fast_resolveRow 3 (-7) = -4 ∧
    ¬(0 ≤ k_vector_add_fast_resolveRow 3 (-7) ∧
      k_vector_add_fast_resolveRow 3 (-7) < 3) := by decide

/-- Claim C8 (amended): the single addition of the row count maps exactly the
index values in [-numRows, numRows) into [0, numRows); values outside that
interval are not brought into range before the atomic add. -/
theorem kernel_negative_wrap :
    ∀ (n : Nat) (i : Int), -(n : Int) ≤ i → i < (n : Int) →
      0 ≤ k_vector_add_fast_resolveRow n i ∧
        k_vector_add_fast_resolveRow n i < (n : Int) := by
  intro n i h1 h2
  unfold k_vector_add_fast_resolveRow
  split_ifs <;> omega

/-- Witness for C8: the index -2 against 5 rows resolves into range. -/
theorem kernel_negative_wrap_witness :
    0 ≤ k_vector_add_fast_resolveRow 5 (-2) ∧
      k_vector_add_fast_resolveRow 5 (-2) < ((5 : Nat) : Int) :=
  kernel_negative_wrap 5 (-2) (by decide) (by decide)
